import Mathlib

/-!
Shallow embedding of `ddtrace/sampler.py`: client-side trace sampling.

Modelling choices:
* Python integers are `ℕ`/`ℤ`; the 64-bit modulus is explicit (`% MAX_TRACE_ID`).
* The sampling rate is a Python float used only through `rate * 2^64` and an
  order comparison; it is embedded as `ℚ` with exact arithmetic.
* A span is a record with the fields the samplers read and write; the
  `getrandbits(64)` draw taken when a span has no `trace_id` is passed in as an
  explicit `rand` argument, so the decision stays a function.
* `array.array('L', ...)` of length `BUFFER_SIZE` becomes `Fin BUFFER_SIZE → ℕ`;
  the running counter, a Python int that is incremented and decremented, is `ℤ`.
* Python `int(x)` truncates toward zero; `pyInt` mirrors that on `ℚ`.
-/

def MAX_TRACE_ID : ℕ := 2 ^ 64

def KNUTH_FACTOR : ℕ := 1111111111111111111

def SAMPLE_RATE_METRIC_KEY : String := "_sample_rate"

/-- The telemetry unit: the fields of a span that the samplers touch. -/
structure Span where
  trace_id : Option ℕ
  sampled : Option Bool
  sampling_priority : Option ℤ
  metrics : List (String × ℚ)
  start : ℚ
deriving Repr, DecidableEq

def Span.set_sampled (sp : Span) (b : Bool) : Span :=
  { sp with sampled := some b }

def Span.set_metric (sp : Span) (k : String) (v : ℚ) : Span :=
  { sp with metrics := (k, v) :: sp.metrics }

def Span.set_sampling_priority (sp : Span) (p : ℤ) : Span :=
  { sp with sampling_priority := some p }

/-- Python `int()` on a rational: truncation toward zero. -/
def pyInt (q : ℚ) : ℤ :=
  if 0 ≤ q then ⌊q⌋ else -⌊-q⌋

/-- Embedding of `AllSampler.sample`: unconditionally keep. -/
def AllSampler.sample (sp : Span) : Span :=
  sp.set_sampled true

/-- The `RateSampler` state: the fields set in `__init__` / `set_sample_rate`. -/
structure RateSampler where
  sample_rate : ℚ
  sampling_id_threshold : ℚ
deriving Repr, DecidableEq

/-- Embedding of `RateSampler.set_sample_rate`: stores the rate and the derived threshold,
with no validation. -/
def RateSampler.set_sample_rate (_s : RateSampler) (r : ℚ) : RateSampler :=
  { sample_rate := r, sampling_id_threshold := r * (MAX_TRACE_ID : ℚ) }

/-- Embedding of `RateSampler.__init__`: coerce a non-positive rate to 1 (fail-open), clamp a
rate above 1 to 1, then delegate to `set_sample_rate`. -/
def RateSampler.init (r : ℚ) : RateSampler :=
  RateSampler.set_sample_rate ⟨0, 0⟩ (if r ≤ 0 then 1 else if 1 < r then 1 else r)

/-- Embedding of `RateSampler.sample`: hash the trace id (or use the random 64-bit draw
`rand` when the span has none), compare against the threshold, mark the span,
and record the applied rate as a metric. -/
def RateSampler.sample (s : RateSampler) (rand : ℕ) (sp : Span) : Span :=
  let processed_id : ℕ :=
    match sp.trace_id with
    | some tid => (tid * KNUTH_FACTOR) % MAX_TRACE_ID
    | none => rand % MAX_TRACE_ID
  let sp1 := sp.set_sampled (decide ((processed_id : ℚ) ≤ s.sampling_id_threshold))
  sp1.set_metric SAMPLE_RATE_METRIC_KEY s.sample_rate

/-- Class constants of `ThroughputSampler`. -/
def BUCKETS_PER_S : ℕ := 10

def BUFFER_DURATION : ℕ := 2

def BUFFER_SIZE : ℕ := BUCKETS_PER_S * BUFFER_DURATION

theorem BUFFER_SIZE_eq : BUFFER_SIZE = 20 := rfl

/-- The `ThroughputSampler` window state set up in `__init__`. The lock only
serializes calls; the serialized behaviour is this state machine. -/
structure ThroughputSampler where
  buffer_limit : ℤ
  counter : ℤ
  counter_buffer : Fin BUFFER_SIZE → ℕ
  last_track_time : ℤ

def ThroughputSampler.init (tps : ℕ) : ThroughputSampler :=
  { buffer_limit := ((tps * BUFFER_DURATION : ℕ) : ℤ)
    counter := 0
    counter_buffer := fun _ => 0
    last_track_time := 0 }

/-- Embedding of `ThroughputSampler.key_from_time`: `t % self.BUFFER_SIZE` (Python `%` on a
positive modulus agrees with `Int.emod`). -/
def keyFromTime (t : ℤ) : Fin BUFFER_SIZE :=
  ⟨(t % (BUFFER_SIZE : ℤ)).toNat, by
    have h1 : 0 ≤ t % (BUFFER_SIZE : ℤ) := Int.emod_nonneg t (by decide)
    have h2 : t % (BUFFER_SIZE : ℤ) < (BUFFER_SIZE : ℤ) :=
      Int.emod_lt_of_pos t (by decide)
    omega⟩

/-- One iteration of the loop body in `expire_buckets`: subtract the bucket at
`key` from the counter and zero that bucket. -/
def expireStep (s : ThroughputSampler) (key : Fin BUFFER_SIZE) : ThroughputSampler :=
  { s with
    counter := s.counter - s.counter_buffer key
    counter_buffer := Function.update s.counter_buffer key 0 }

/-- Embedding of `ThroughputSampler.expire_buckets`: expire
`min(BUFFER_SIZE, end - start)` buckets at keys `start+1, ..., start+period`. -/
def ThroughputSampler.expire_buckets (s : ThroughputSampler) (start endT : ℤ) :
    ThroughputSampler :=
  let period := min ((BUFFER_SIZE : ℕ) : ℤ) (endT - start)
  (List.range period.toNat).foldl
    (fun st (i : ℕ) => expireStep st (keyFromTime (start + (i : ℤ) + 1))) s

/-- The window-advance step at the top of `ThroughputSampler.sample`: when `now`
is strictly newer than `last_track_time`, expire the gap and record `now`. -/
def ThroughputSampler.advance (s : ThroughputSampler) (now : ℤ) : ThroughputSampler :=
  if s.last_track_time < now then
    { s.expire_buckets s.last_track_time now with last_track_time := now }
  else s

/-- The bookkeeping done on a kept trace: increment the counter and the bucket
of `now`. -/
def ThroughputSampler.keepStep (s : ThroughputSampler) (now : ℤ) : ThroughputSampler :=
  { s with
    counter := s.counter + 1
    counter_buffer :=
      Function.update s.counter_buffer (keyFromTime now)
        (s.counter_buffer (keyFromTime now) + 1) }

/-- The body of `ThroughputSampler.sample` once `now` has been computed: advance
the window, decide against `buffer_limit`, and on a keep run `keepStep`. -/
def ThroughputSampler.sampleTick (s : ThroughputSampler) (now : ℤ) :
    Bool × ThroughputSampler :=
  let s1 := s.advance now
  let sampled := decide (s1.counter < s1.buffer_limit)
  (sampled, if sampled then s1.keepStep now else s1)

/-- The tick index of a span: `int(span.start * BUCKETS_PER_S)`. -/
def tickOf (sp : Span) : ℤ :=
  pyInt (sp.start * ((BUCKETS_PER_S : ℕ) : ℚ))

/-- Embedding of `ThroughputSampler.sample`: compute the tick of the span, run the decision,
mark the span. -/
def ThroughputSampler.sample (s : ThroughputSampler) (sp : Span) :
    ThroughputSampler × Span :=
  let r := s.sampleTick (tickOf sp)
  (r.2, sp.set_sampled r.1)

/-- Run the throughput decision over a sequence of tick indices, collecting the
decisions in order. -/
def runTicks (s : ThroughputSampler) : List ℤ → ThroughputSampler × List Bool
  | [] => (s, [])
  | n :: rest =>
    let r := s.sampleTick n
    let r2 := runTicks r.2 rest
    (r2.1, r.1 :: r2.2)

/-- Run `ThroughputSampler.sample` over a sequence of spans, collecting each
output span's keep flag in order. -/
def decideRun (s : ThroughputSampler) : List Span → ThroughputSampler × List Bool
  | [] => (s, [])
  | sp :: rest =>
    let r := s.sample sp
    let r2 := decideRun r.1 rest
    (r2.1, (r.2.sampled.getD false) :: r2.2)

/-- The `DistributedSampled` proxy holding a span. -/
structure DistributedSampled where
  span : Span

/-- Embedding of `DistributedSampled.set_sampled`: write the decision through the
sampling-priority channel (`1` = keep, `0` = drop). -/
def DistributedSampled.set_sampled (d : DistributedSampled) (sampled : Bool) : Span :=
  d.span.set_sampling_priority (if sampled then 1 else 0)

/-- States of the throughput sampler reachable by decide operations. -/
inductive Reachable : ThroughputSampler → Prop
  | init (tps : ℕ) : Reachable (ThroughputSampler.init tps)
  | step (s : ThroughputSampler) (sp : Span) :
      Reachable s → Reachable (s.sample sp).1

/-- Sum of the circular buffer, as an integer. -/
def bucketSum (f : Fin BUFFER_SIZE → ℕ) : ℤ :=
  ∑ i : Fin BUFFER_SIZE, (f i : ℤ)

/-- The window invariant: the running counter equals the buffer sum. -/
def WindowInv (s : ThroughputSampler) : Prop :=
  s.counter = bucketSum s.counter_buffer

/-- A span with trace id 0 at time 0, used to instantiate theorems. -/
def spanA : Span :=
  { trace_id := some 0, sampled := none, sampling_priority := none,
    metrics := [], start := 0 }

/-! ### The rate sampler's decision -/

theorem rate_sample_sampled (s : RateSampler) (rand : ℕ) (sp : Span) (id : ℕ)
    (h : sp.trace_id = some id) :
    (s.sample rand sp).sampled =
      some (decide ((((id * KNUTH_FACTOR) % MAX_TRACE_ID : ℕ) : ℚ) ≤
        s.sampling_id_threshold)) := by
  unfold RateSampler.sample Span.set_metric Span.set_sampled
  simp [h]

/-- Whatever the trace id situation, the compared value is a 64-bit residue. -/
theorem rate_sample_processed (s : RateSampler) (rand : ℕ) (sp : Span) :
    ∃ p : ℕ, p < MAX_TRACE_ID ∧
      (s.sample rand sp).sampled =
        some (decide ((p : ℚ) ≤ s.sampling_id_threshold)) := by
  unfold RateSampler.sample Span.set_metric Span.set_sampled
  cases h : sp.trace_id with
  | none =>
    exact ⟨rand % MAX_TRACE_ID,
      Nat.mod_lt _ (by norm_num [MAX_TRACE_ID]), by simp [h]⟩
  | some tid =>
    exact ⟨(tid * KNUTH_FACTOR) % MAX_TRACE_ID,
      Nat.mod_lt _ (by norm_num [MAX_TRACE_ID]), by simp [h]⟩

/-- An in-range configured rate passes through construction unchanged. -/
theorem init_of_mem (r : ℚ) (h1 : 0 < r) (h2 : r ≤ 1) :
    RateSampler.init r =
      { sample_rate := r, sampling_id_threshold := r * (MAX_TRACE_ID : ℚ) } := by
  unfold RateSampler.init RateSampler.set_sample_rate
  rw [if_neg (not_le.mpr h1), if_neg (not_lt.mpr h2)]

/-! ### Invariant bookkeeping for the circular buffer -/

theorem bucketSum_update (f : Fin BUFFER_SIZE → ℕ) (k : Fin BUFFER_SIZE) (v : ℕ) :
    bucketSum (Function.update f k v) = bucketSum f - (f k : ℤ) + v := by
  unfold bucketSum
  have h1 : ∀ i : Fin BUFFER_SIZE, ((Function.update f k v i : ℕ) : ℤ) =
      Function.update (fun j => ((f j : ℕ) : ℤ)) k ((v : ℕ) : ℤ) i := by
    intro i
    by_cases h : i = k <;> simp [Function.update_apply, h]
  rw [Finset.sum_congr rfl fun i _ => h1 i]
  rw [Finset.sum_update_of_mem (Finset.mem_univ k)]
  rw [Finset.sum_eq_sum_diff_singleton_add (Finset.mem_univ k) (fun j => ((f j : ℕ) : ℤ))]
  ring

theorem expireStep_inv {s : ThroughputSampler} (k : Fin BUFFER_SIZE)
    (h : WindowInv s) : WindowInv (expireStep s k) := by
  unfold WindowInv expireStep at *
  simp only [bucketSum_update]
  omega

theorem expireStep_fields (s : ThroughputSampler) (k : Fin BUFFER_SIZE) :
    (expireStep s k).buffer_limit = s.buffer_limit ∧
      (expireStep s k).last_track_time = s.last_track_time := by
  constructor <;> rfl

theorem foldl_expireStep_inv (g : ℕ → Fin BUFFER_SIZE) :
    ∀ (l : List ℕ) (s : ThroughputSampler), WindowInv s →
      WindowInv (l.foldl (fun st i => expireStep st (g i)) s)
  | [], _, h => h
  | _ :: t, s, h => foldl_expireStep_inv g t _ (expireStep_inv _ h)

theorem foldl_expireStep_fields (g : ℕ → Fin BUFFER_SIZE) :
    ∀ (l : List ℕ) (s : ThroughputSampler),
      (l.foldl (fun st i => expireStep st (g i)) s).buffer_limit = s.buffer_limit ∧
        (l.foldl (fun st i => expireStep st (g i)) s).last_track_time = s.last_track_time
  | [], _ => ⟨rfl, rfl⟩
  | _ :: t, s => foldl_expireStep_fields g t _

theorem expire_buckets_inv (a b : ℤ) (s : ThroughputSampler)
    (h : WindowInv s) : WindowInv (s.expire_buckets a b) :=
  foldl_expireStep_inv (fun i => keyFromTime (a + (i : ℤ) + 1)) _ s h

theorem expire_buckets_fields (a b : ℤ) (s : ThroughputSampler) :
    (s.expire_buckets a b).buffer_limit = s.buffer_limit ∧
      (s.expire_buckets a b).last_track_time = s.last_track_time :=
  foldl_expireStep_fields (fun i => keyFromTime (a + (i : ℤ) + 1)) _ s

theorem advance_inv {s : ThroughputSampler} (now : ℤ)
    (h : WindowInv s) : WindowInv (s.advance now) := by
  unfold ThroughputSampler.advance
  split
  · exact expire_buckets_inv _ _ s h
  · exact h

theorem advance_buffer_limit (s : ThroughputSampler) (now : ℤ) :
    (s.advance now).buffer_limit = s.buffer_limit := by
  unfold ThroughputSampler.advance
  split
  · exact (expire_buckets_fields _ _ s).1
  · rfl

theorem keepStep_inv {s : ThroughputSampler} (now : ℤ)
    (h : WindowInv s) : WindowInv (s.keepStep now) := by
  unfold WindowInv ThroughputSampler.keepStep at *
  simp only [bucketSum_update]
  omega

theorem sampleTick_inv {s : ThroughputSampler} (now : ℤ)
    (h : WindowInv s) : WindowInv (s.sampleTick now).2 := by
  unfold ThroughputSampler.sampleTick
  simp only
  split
  · exact keepStep_inv now (advance_inv now h)
  · exact advance_inv now h

theorem sample_inv {s : ThroughputSampler} (sp : Span)
    (h : WindowInv s) : WindowInv (s.sample sp).1 :=
  sampleTick_inv _ h

theorem reachable_inv : ∀ s : ThroughputSampler, Reachable s → WindowInv s := by
  intro s h
  induction h with
  | init tps =>
    unfold WindowInv ThroughputSampler.init bucketSum
    simp
  | step s sp _ ih => exact sample_inv sp ih

/-! ### What expiration does to individual buckets -/

theorem foldl_expireStep_buffer (g : ℕ → Fin BUFFER_SIZE) :
    ∀ (l : List ℕ) (s : ThroughputSampler) (j : Fin BUFFER_SIZE),
      (l.foldl (fun st i => expireStep st (g i)) s).counter_buffer j =
        if ∃ i ∈ l, g i = j then 0 else s.counter_buffer j := by
  intro l
  induction l with
  | nil => simp
  | cons i t ih =>
    intro s j
    rw [List.foldl_cons, ih]
    by_cases h2 : g i = j
    · by_cases h1 : ∃ x ∈ t, g x = j <;>
        simp [h1, h2, expireStep, Function.update_apply]
    · by_cases h1 : ∃ x ∈ t, g x = j <;>
        simp [h1, h2, expireStep, Function.update_apply, Ne.symm h2]

theorem expire_buckets_buffer (a b : ℤ) (s : ThroughputSampler) (j : Fin BUFFER_SIZE) :
    (s.expire_buckets a b).counter_buffer j =
      if ∃ i ∈ List.range (min ((BUFFER_SIZE : ℕ) : ℤ) (b - a)).toNat,
          keyFromTime (a + (i : ℤ) + 1) = j then 0
      else s.counter_buffer j :=
  foldl_expireStep_buffer (fun i => keyFromTime (a + (i : ℤ) + 1)) _ s j

/-- Twenty consecutive keys starting anywhere cover every bucket index. -/
theorem key_coverage (a : ℤ) (j : Fin BUFFER_SIZE) :
    ∃ i : ℕ, i < BUFFER_SIZE ∧ keyFromTime (a + (i : ℤ) + 1) = j := by
  have hj : (j : ℕ) < 20 := j.isLt
  refine ⟨(((j : ℕ) : ℤ) - a - 1) % 20 |>.toNat, ?_, ?_⟩
  · show ((((j : ℕ) : ℤ) - a - 1) % 20).toNat < 20
    omega
  · apply Fin.ext
    show ((a + ((((((j : ℕ) : ℤ) - a - 1) % 20).toNat : ℕ) : ℤ) + 1) %
        (20 : ℤ)).toNat = (j : ℕ)
    omega

/-- A gap of at least a full window expires every bucket; under the invariant
the counter therefore returns to zero. -/
theorem expire_buckets_full (a b : ℤ) (s : ThroughputSampler)
    (hgap : ((BUFFER_SIZE : ℕ) : ℤ) ≤ b - a) :
    (∀ j, (s.expire_buckets a b).counter_buffer j = 0) ∧
      (WindowInv s → (s.expire_buckets a b).counter = 0) := by
  have hmin : min ((BUFFER_SIZE : ℕ) : ℤ) (b - a) = ((BUFFER_SIZE : ℕ) : ℤ) :=
    min_eq_left hgap
  have hbuf : ∀ j, (s.expire_buckets a b).counter_buffer j = 0 := by
    intro j
    rw [expire_buckets_buffer, if_pos]
    obtain ⟨i, hi, hkey⟩ := key_coverage a j
    exact ⟨i, by rw [hmin]; simpa using hi, hkey⟩
  refine ⟨hbuf, fun hinv => ?_⟩
  have h2 := expire_buckets_inv a b s hinv
  unfold WindowInv at h2
  rw [h2]
  unfold bucketSum
  exact Finset.sum_eq_zero fun i _ => by rw [hbuf i]; rfl

/-! ### Same-tick runs -/

theorem advance_last_ge (s : ThroughputSampler) (now : ℤ) :
    now ≤ (s.advance now).last_track_time := by
  unfold ThroughputSampler.advance
  split
  · exact le_refl now
  · omega

theorem sampleTick_no_advance (s : ThroughputSampler) (now : ℤ)
    (h : now ≤ s.last_track_time) :
    s.sampleTick now =
      (decide (s.counter < s.buffer_limit),
        if s.counter < s.buffer_limit then s.keepStep now else s) := by
  unfold ThroughputSampler.sampleTick ThroughputSampler.advance
  rw [if_neg (not_lt.mpr h)]
  by_cases hc : s.counter < s.buffer_limit <;> simp [hc]

theorem runTicks_cons (s : ThroughputSampler) (n : ℤ) (t : List ℤ) :
    runTicks s (n :: t) =
      ((runTicks (s.sampleTick n).2 t).1,
        (s.sampleTick n).1 :: (runTicks (s.sampleTick n).2 t).2) := rfl

/-- A burst that fits under the limit, at a tick not newer than the window, is
kept in full. -/
theorem runTicks_replicate_all_kept :
    ∀ (k : ℕ) (s : ThroughputSampler) (n : ℤ),
      n ≤ s.last_track_time → s.counter + k ≤ s.buffer_limit →
      (runTicks s (List.replicate k n)).2 = List.replicate k true ∧
        (runTicks s (List.replicate k n)).1.counter = s.counter + k := by
  intro k
  induction k with
  | zero => intro s n _ _; simp [runTicks]
  | succ k ih =>
    intro s n hlast hcnt
    have hc : s.counter < s.buffer_limit := by push_cast at hcnt; omega
    rw [List.replicate_succ, runTicks_cons, sampleTick_no_advance s n hlast]
    have hlast2 : n ≤ (s.keepStep n).last_track_time := hlast
    have hcnt2 : (s.keepStep n).counter + k ≤ (s.keepStep n).buffer_limit := by
      show s.counter + 1 + (k : ℤ) ≤ s.buffer_limit
      push_cast at hcnt
      omega
    have ih2 := ih (s.keepStep n) n hlast2 hcnt2
    refine ⟨?_, ?_⟩
    · simp only [if_pos hc, hc, decide_eq_true_eq, List.replicate_succ]
      simp [hc, ih2.1]
    · simp only [if_pos hc, ih2.2]
      show s.counter + 1 + (k : ℤ) = s.counter + ((k : ℕ) + 1 : ℕ)
      push_cast
      ring

/-- Count of keeps in a same-tick run: the room left under the limit, capped by
the burst size. -/
theorem runTicks_replicate_count :
    ∀ (k : ℕ) (s : ThroughputSampler) (n : ℤ),
      n ≤ s.last_track_time →
      (runTicks s (List.replicate k n)).2.count true =
          min k (s.buffer_limit - s.counter).toNat ∧
        (runTicks s (List.replicate k n)).2.count false =
          k - min k (s.buffer_limit - s.counter).toNat := by
  intro k
  induction k with
  | zero => intro s n _; simp [runTicks]
  | succ k ih =>
    intro s n hlast
    rw [List.replicate_succ, runTicks_cons, sampleTick_no_advance s n hlast]
    by_cases hc : s.counter < s.buffer_limit
    · have ih2 := ih (s.keepStep n) n hlast
      have hcc : (s.keepStep n).counter = s.counter + 1 := rfl
      have hbb : (s.keepStep n).buffer_limit = s.buffer_limit := rfl
      rw [hcc, hbb] at ih2
      simp only [if_pos hc, hc, decide_eq_true_eq, List.count_cons, ih2.1, ih2.2]
      constructor <;> simp <;> omega
    · have ih2 := ih s n hlast
      simp only [if_neg hc, hc, decide_eq_true_eq, List.count_cons, ih2.1, ih2.2]
      constructor <;> simp <;> omega

/-- Running `sample` over spans is running the tick machine over their ticks. -/
theorem decideRun_eq_runTicks :
    ∀ (sps : List Span) (s : ThroughputSampler),
      decideRun s sps = runTicks s (sps.map tickOf)
  | [], _ => rfl
  | sp :: t, s => by
    simp only [decideRun, List.map_cons, runTicks, ThroughputSampler.sample,
      Span.set_sampled, decideRun_eq_runTicks t, Option.getD_some]

theorem advance_absorb (s : ThroughputSampler) (n : ℤ) :
    (s.advance n).advance n = s.advance n := by
  set t := s.advance n with ht
  have h : n ≤ t.last_track_time := advance_last_ge s n
  unfold ThroughputSampler.advance
  rw [if_neg (not_lt.mpr h)]

theorem sampleTick_advance_absorb (s : ThroughputSampler) (n : ℤ) :
    s.sampleTick n = (s.advance n).sampleTick n := by
  unfold ThroughputSampler.sampleTick
  rw [advance_absorb]

theorem runTicks_replicate_advance (s : ThroughputSampler) (n : ℤ) (N : ℕ) :
    (runTicks s (List.replicate N n)).2 =
      (runTicks (s.advance n) (List.replicate N n)).2 := by
  cases N with
  | zero => rfl
  | succ m =>
    rw [List.replicate_succ, runTicks_cons, runTicks_cons, ← sampleTick_advance_absorb]

/-- With an all-zero buffer and a zero counter, the window advance leaves the
counter at zero. -/
theorem advance_zero (s : ThroughputSampler) (n : ℤ)
    (h0 : ∀ j, s.counter_buffer j = 0) (hc : s.counter = 0) :
    (s.advance n).counter = 0 := by
  unfold ThroughputSampler.advance
  split
  · have hinv : WindowInv s := by
      unfold WindowInv bucketSum
      rw [hc]
      exact (Finset.sum_eq_zero fun i _ => by rw [h0 i]; rfl).symm
    have h2 := expire_buckets_inv s.last_track_time n s hinv
    have h3 : ∀ j, (s.expire_buckets s.last_track_time n).counter_buffer j = 0 := by
      intro j
      rw [expire_buckets_buffer]
      split
      · rfl
      · exact h0 j
    show (s.expire_buckets s.last_track_time n).counter = 0
    rw [h2]
    exact Finset.sum_eq_zero fun i _ => by rw [h3 i]; rfl
  · exact hc

/-- Decision counts for a same-tick burst from an empty window. -/
theorem runTicks_empty_count (s : ThroughputSampler) (n : ℤ) (N : ℕ)
    (h0 : ∀ j, s.counter_buffer j = 0) (hc : s.counter = 0) :
    (runTicks s (List.replicate N n)).2.count true = min N s.buffer_limit.toNat ∧
      (runTicks s (List.replicate N n)).2.count false =
        N - min N s.buffer_limit.toNat := by
  rw [runTicks_replicate_advance]
  have h1 := runTicks_replicate_count N (s.advance n) n (advance_last_ge s n)
  rw [advance_zero s n h0 hc, advance_buffer_limit] at h1
  simpa using h1

/-- Spans sharing one tick map to a constant tick list. -/
theorem map_tickOf_replicate (sps : List Span) (n : ℤ)
    (h : ∀ sp ∈ sps, tickOf sp = n) :
    sps.map tickOf = List.replicate sps.length n := by
  have hlen : (sps.map tickOf).length = sps.length := List.length_map _ _
  rw [← hlen]
  apply List.eq_replicate_length.mpr
  intro b hb
  obtain ⟨sp, hsp, rfl⟩ := List.mem_map.mp hb
  exact h sp hsp

/-! ### Claim theorems -/

/-- C1: for a configured rate `r ∈ (0, 1]` and a unit carrying a trace
identifier, the rate sampler keeps the unit exactly when
`(identifier * 1111111111111111111) mod 2^64 ≤ r * 2^64`; in particular a unit
with identifier 0 is kept for every such `r`, and with `r = 1/2` any identifier
whose processed value exceeds `2^63` is dropped. -/
theorem C1_rate_sampler_decision (r : ℚ) (h1 : 0 < r) (h2 : r ≤ 1)
    (sp : Span) (id rand : ℕ) (hid : sp.trace_id = some id) :
    ((RateSampler.init r).sample rand sp).sampled =
        some (decide ((((id * KNUTH_FACTOR) % MAX_TRACE_ID : ℕ) : ℚ) ≤
          r * (MAX_TRACE_ID : ℚ))) ∧
      (id = 0 → ((RateSampler.init r).sample rand sp).sampled = some true) ∧
      (r = 1 / 2 → 2 ^ 63 < (id * KNUTH_FACTOR) % MAX_TRACE_ID →
        ((RateSampler.init r).sample rand sp).sampled = some false) := by
  rw [init_of_mem r h1 h2]
  have hs := rate_sample_sampled
    { sample_rate := r, sampling_id_threshold := r * (MAX_TRACE_ID : ℚ) } rand sp id hid
  refine ⟨hs, ?_, ?_⟩
  · intro h0
    subst h0
    rw [hs]
    simp only [Nat.zero_mul, Nat.zero_mod, Nat.cast_zero, Option.some_inj]
    rw [decide_eq_true_eq]
    positivity
  · intro hr hbig
    subst hr
    rw [hs]
    simp only [Option.some_inj]
    rw [decide_eq_false_iff_not, not_le, MAX_TRACE_ID]
    have : ((2 ^ 63 : ℕ) : ℚ) < (((id * KNUTH_FACTOR) % MAX_TRACE_ID : ℕ) : ℚ) := by
      exact_mod_cast hbig
    calc (1 / 2 : ℚ) * ((2 ^ 64 : ℕ) : ℚ) = ((2 ^ 63 : ℕ) : ℚ) := by push_cast; ring
      _ < _ := this

theorem C1_rate_sampler_decision_witness :
    (0 : ℚ) < 1 ∧ (1 : ℚ) ≤ 1 ∧ spanA.trace_id = some 0 ∧
      (((RateSampler.init 1).sample 0 spanA).sampled =
          some (decide ((((0 * KNUTH_FACTOR) % MAX_TRACE_ID : ℕ) : ℚ) ≤
            1 * (MAX_TRACE_ID : ℚ))) ∧
        (0 = 0 → ((RateSampler.init 1).sample 0 spanA).sampled = some true) ∧
        ((1 : ℚ) = 1 / 2 → 2 ^ 63 < (0 * KNUTH_FACTOR) % MAX_TRACE_ID →
          ((RateSampler.init 1).sample 0 spanA).sampled = some false)) :=
  ⟨by norm_num, by norm_num, rfl,
    C1_rate_sampler_decision 1 (by norm_num) (by norm_num) spanA 0 0 rfl⟩

/-- C2: with a fixed sampler, the keep/drop outcome on a unit carrying a given
identifier is the same on repeated invocations (including on the span already
marked by the first call) and on any other unit carrying the same identifier,
independent of the random draw: the decision is a function of rate and
identifier alone. -/
theorem C2_rate_sampler_deterministic (s : RateSampler) (sp : Span)
    (id rand1 rand2 : ℕ) (hid : sp.trace_id = some id) :
    (s.sample rand2 (s.sample rand1 sp)).sampled = (s.sample rand1 sp).sampled ∧
      (∀ (sp2 : Span) (rand3 : ℕ), sp2.trace_id = some id →
        (s.sample rand3 sp2).sampled = (s.sample rand1 sp).sampled) := by
  have hpres : (s.sample rand1 sp).trace_id = sp.trace_id := rfl
  constructor
  · rw [rate_sample_sampled s rand2 _ id (hpres.trans hid),
      rate_sample_sampled s rand1 sp id hid]
  · intro sp2 rand3 hid2
    rw [rate_sample_sampled s rand3 sp2 id hid2,
      rate_sample_sampled s rand1 sp id hid]

theorem C2_rate_sampler_deterministic_witness :
    spanA.trace_id = some 0 ∧
      (((RateSampler.init 1).sample 7 ((RateSampler.init 1).sample 3 spanA)).sampled =
          ((RateSampler.init 1).sample 3 spanA).sampled ∧
        (∀ (sp2 : Span) (rand3 : ℕ), sp2.trace_id = some 0 →
          ((RateSampler.init 1).sample rand3 sp2).sampled =
            ((RateSampler.init 1).sample 3 spanA).sampled)) :=
  ⟨rfl, C2_rate_sampler_deterministic (RateSampler.init 1) spanA 0 3 7 rfl⟩

/-- C3: keeping is monotone in the configured rate: for rates
`0 < r1 < r2 ≤ 1` and a unit carrying an identifier, if the sampler built with
`r1` keeps the unit then the sampler built with `r2` keeps it too. -/
theorem C3_rate_monotone (r1 r2 : ℚ) (hr1 : 0 < r1) (h12 : r1 < r2) (hr2 : r2 ≤ 1)
    (sp : Span) (id rand1 rand2 : ℕ) (hid : sp.trace_id = some id)
    (hkept : ((RateSampler.init r1).sample rand1 sp).sampled = some true) :
    ((RateSampler.init r2).sample rand2 sp).sampled = some true := by
  rw [init_of_mem r1 hr1 (le_of_lt (lt_of_lt_of_le h12 hr2)),
    rate_sample_sampled _ rand1 sp id hid] at hkept
  rw [init_of_mem r2 (lt_trans hr1 h12) hr2, rate_sample_sampled _ rand2 sp id hid]
  simp only [Option.some_inj, decide_eq_true_eq] at hkept ⊢
  exact le_trans hkept (mul_le_mul_of_nonneg_right (le_of_lt h12) (by positivity))

theorem C3_rate_monotone_witness :
    (0 : ℚ) < 1 / 2 ∧ (1 / 2 : ℚ) < 1 ∧ (1 : ℚ) ≤ 1 ∧ spanA.trace_id = some 0 ∧
      ((RateSampler.init (1 / 2)).sample 0 spanA).sampled = some true ∧
      ((RateSampler.init 1).sample 0 spanA).sampled = some true := by
  have hkept : ((RateSampler.init (1 / 2)).sample 0 spanA).sampled = some true := by
    rw [init_of_mem (1 / 2) (by norm_num) (by norm_num),
      rate_sample_sampled _ 0 spanA 0 rfl]
    simp only [Nat.zero_mul, Nat.zero_mod, Nat.cast_zero, Option.some_inj]
    rw [decide_eq_true_eq]
    positivity
  exact ⟨by norm_num, by norm_num, by norm_num, rfl, hkept,
    C3_rate_monotone (1 / 2) 1 (by norm_num) (by norm_num) (by norm_num)
      spanA 0 0 0 rfl hkept⟩

/-- C8: construction never fails: a rate `r ≤ 0` falls back to rate 1 and a
rate `r > 1` is clamped to 1, and the rate-1 sampler keeps every unit (with or
without an identifier). -/
theorem C8_construction_fail_open :
    (∀ r : ℚ, r ≤ 0 → RateSampler.init r = RateSampler.init 1) ∧
      (∀ r : ℚ, 1 < r → RateSampler.init r = RateSampler.init 1) ∧
      (∀ (sp : Span) (rand : ℕ),
        ((RateSampler.init 1).sample rand sp).sampled = some true) := by
  refine ⟨?_, ?_, ?_⟩
  · intro r h
    unfold RateSampler.init
    rw [if_pos h]
    norm_num
  · intro r h
    unfold RateSampler.init
    rw [if_neg (by linarith : ¬ r ≤ 0), if_pos h]
    norm_num
  · intro sp rand
    obtain ⟨p, hp, hs⟩ := rate_sample_processed (RateSampler.init 1) rand sp
    rw [init_of_mem 1 one_pos le_rfl] at hs
    rw [init_of_mem 1 one_pos le_rfl, hs]
    simp only [Option.some_inj]
    rw [decide_eq_true_eq]
    show (p : ℚ) ≤ 1 * ((MAX_TRACE_ID : ℕ) : ℚ)
    rw [one_mul]
    exact_mod_cast le_of_lt hp

theorem C8_construction_fail_open_witness :
    (-1 : ℚ) ≤ 0 ∧ (1 : ℚ) < 2 ∧
      RateSampler.init (-1) = RateSampler.init 1 ∧
      RateSampler.init 2 = RateSampler.init 1 ∧
      ((RateSampler.init 1).sample 0 spanA).sampled = some true :=
  ⟨by norm_num, by norm_num,
    C8_construction_fail_open.1 (-1) (by norm_num),
    C8_construction_fail_open.2.1 2 (by norm_num),
    C8_construction_fail_open.2.2 spanA 0⟩

/-- C9: the propagator writes priority 1 for `sampled = true` and 0 for
`sampled = false`, through the sampling-priority field and not the local keep
flag (which it leaves untouched), and the two priority values are distinct. -/
theorem C9_distributed_priority (sp : Span) (b : Bool) :
    ((DistributedSampled.mk sp).set_sampled b).sampling_priority =
        some (if b then 1 else 0) ∧
      ((DistributedSampled.mk sp).set_sampled b).sampled = sp.sampled ∧
      ((DistributedSampled.mk sp).set_sampled true).sampling_priority = some 1 ∧
      ((DistributedSampled.mk sp).set_sampled false).sampling_priority = some 0 ∧
      ((DistributedSampled.mk sp).set_sampled true).sampling_priority ≠
        ((DistributedSampled.mk sp).set_sampled false).sampling_priority :=
  ⟨rfl, rfl, rfl, rfl, by
    simp [DistributedSampled.set_sampled, Span.set_sampling_priority]⟩

/-- C10: re-configuration via `set_sample_rate` stores the rate and threshold
as given, with no clamping and no fail-open coercion: after an update to rate 0
a unit with an identifier is kept only when its processed hash is exactly 0,
and after an update to a negative rate no unit with an identifier is kept. -/
theorem C10_set_sample_rate_raw (s : RateSampler) (r : ℚ) :
    (s.set_sample_rate r).sample_rate = r ∧
      (s.set_sample_rate r).sampling_id_threshold = r * (MAX_TRACE_ID : ℚ) ∧
      (∀ (sp : Span) (id rand : ℕ), sp.trace_id = some id →
        (((s.set_sample_rate 0).sample rand sp).sampled = some true ↔
          (id * KNUTH_FACTOR) % MAX_TRACE_ID = 0)) ∧
      (∀ (sp : Span) (id rand : ℕ) (r2 : ℚ), r2 < 0 → sp.trace_id = some id →
        ((s.set_sample_rate r2).sample rand sp).sampled = some false) := by
  refine ⟨rfl, rfl, ?_, ?_⟩
  · intro sp id rand hid
    rw [rate_sample_sampled _ rand sp id hid]
    simp only [Option.some_inj, decide_eq_true_eq]
    show (((id * KNUTH_FACTOR) % MAX_TRACE_ID : ℕ) : ℚ) ≤ 0 * ((MAX_TRACE_ID : ℕ) : ℚ) ↔ _
    rw [zero_mul]
    simp [Nat.cast_nonpos]
  · intro sp id rand r2 hneg hid
    rw [rate_sample_sampled _ rand sp id hid]
    simp only [Option.some_inj]
    rw [decide_eq_false_iff_not, not_le]
    have hM : (0 : ℚ) < ((MAX_TRACE_ID : ℕ) : ℚ) := by norm_num [MAX_TRACE_ID]
    calc (s.set_sample_rate r2).sampling_id_threshold
        = r2 * ((MAX_TRACE_ID : ℕ) : ℚ) := rfl
      _ < 0 := mul_neg_of_neg_of_pos hneg hM
      _ ≤ _ := Nat.cast_nonneg _

theorem C10_set_sample_rate_raw_witness :
    ((RateSampler.init 1).set_sample_rate 5).sample_rate = 5 ∧
      ((RateSampler.init 1).set_sample_rate 5).sampling_id_threshold =
        5 * (MAX_TRACE_ID : ℚ) ∧
      ((((RateSampler.init 1).set_sample_rate 0).sample 0 spanA).sampled = some true ↔
        (0 * KNUTH_FACTOR) % MAX_TRACE_ID = 0) ∧
      (((RateSampler.init 1).set_sample_rate (-1)).sample 0 spanA).sampled =
        some false :=
  ⟨(C10_set_sample_rate_raw (RateSampler.init 1) 5).1,
    (C10_set_sample_rate_raw (RateSampler.init 1) 5).2.1,
    (C10_set_sample_rate_raw (RateSampler.init 1) 5).2.2.1 spanA 0 0 rfl,
    (C10_set_sample_rate_raw (RateSampler.init 1) 5).2.2.2 spanA 0 0 (-1)
      (by norm_num) rfl⟩

/-- Concrete throughput-sampler state with a window already advanced to tick 5,
used to instantiate theorems. -/
def tsA : ThroughputSampler :=
  { buffer_limit := 2, counter := 0, counter_buffer := fun _ => 0,
    last_track_time := 5 }

/-- C5: every state reachable by decide operations satisfies
`counter = Σ buckets`; each expiration step subtracts exactly the expired
bucket's prior value and zeroes that bucket, and the expiration loop, the tick
step and the full decide operation all preserve the equality. -/
theorem C5_window_invariant :
    (∀ s : ThroughputSampler, Reachable s →
        s.counter = bucketSum s.counter_buffer) ∧
      (∀ (s : ThroughputSampler) (k : Fin BUFFER_SIZE),
        (expireStep s k).counter = s.counter - s.counter_buffer k ∧
          (expireStep s k).counter_buffer k = 0) ∧
      (∀ (s : ThroughputSampler) (k : Fin BUFFER_SIZE),
        WindowInv s → WindowInv (expireStep s k)) ∧
      (∀ (s : ThroughputSampler) (a b : ℤ),
        WindowInv s → WindowInv (s.expire_buckets a b)) ∧
      (∀ (s : ThroughputSampler) (n : ℤ),
        WindowInv s → WindowInv (s.sampleTick n).2) ∧
      (∀ (s : ThroughputSampler) (sp : Span),
        WindowInv s → WindowInv (s.sample sp).1) :=
  ⟨reachable_inv,
    fun s k => ⟨rfl, by simp [expireStep]⟩,
    fun s k => expireStep_inv k,
    fun s a b => expire_buckets_inv a b s,
    fun s n => sampleTick_inv n,
    fun s sp => sample_inv sp⟩

theorem C5_window_invariant_witness :
    Reachable (ThroughputSampler.init 3) ∧
      (ThroughputSampler.init 3).counter =
        bucketSum (ThroughputSampler.init 3).counter_buffer :=
  ⟨Reachable.init 3, C5_window_invariant.1 _ (Reachable.init 3)⟩

/-- C7: on a tick strictly older than `last_track_time` (clock regression) the
decide operation expires nothing — `last_track_time`, `buffer_limit` are
unchanged, the counter and buckets change only by the conditional keep
increment — and the decision still compares the current counter against
`buffer_limit`. -/
theorem C7_clock_regression (s : ThroughputSampler) (sp : Span)
    (h : tickOf sp < s.last_track_time) :
    (s.sample sp).2.sampled = some (decide (s.counter < s.buffer_limit)) ∧
      (s.sample sp).1.last_track_time = s.last_track_time ∧
      (s.sample sp).1.buffer_limit = s.buffer_limit ∧
      (s.sample sp).1.counter =
        s.counter + (if s.counter < s.buffer_limit then 1 else 0) ∧
      (∀ j, (s.sample sp).1.counter_buffer j =
        (if s.counter < s.buffer_limit ∧ j = keyFromTime (tickOf sp)
          then s.counter_buffer j + 1 else s.counter_buffer j)) := by
  have hst := sampleTick_no_advance s (tickOf sp) (le_of_lt h)
  unfold ThroughputSampler.sample
  simp only [hst]
  by_cases hc : s.counter < s.buffer_limit
  · simp only [if_pos hc]
    refine ⟨by simp [Span.set_sampled, hc], rfl, rfl,
      by simp [ThroughputSampler.keepStep, hc], ?_⟩
    intro j
    by_cases hj : j = keyFromTime (tickOf sp)
    · subst hj
      simp [ThroughputSampler.keepStep, Function.update_same, hc]
    · simp [ThroughputSampler.keepStep, Function.update_apply, hj, hc]
  · simp only [if_neg hc]
    refine ⟨by simp [Span.set_sampled, hc], by trivial, by trivial,
      by simp [hc], ?_⟩
    intro j
    simp [hc]

theorem C7_clock_regression_witness :
    tickOf spanA < tsA.last_track_time ∧
      ((tsA.sample spanA).2.sampled =
          some (decide (tsA.counter < tsA.buffer_limit)) ∧
        (tsA.sample spanA).1.last_track_time = tsA.last_track_time ∧
        (tsA.sample spanA).1.buffer_limit = tsA.buffer_limit ∧
        (tsA.sample spanA).1.counter =
          tsA.counter + (if tsA.counter < tsA.buffer_limit then 1 else 0) ∧
        (∀ j, (tsA.sample spanA).1.counter_buffer j =
          (if tsA.counter < tsA.buffer_limit ∧ j = keyFromTime (tickOf spanA)
            then tsA.counter_buffer j + 1 else tsA.counter_buffer j))) := by
  have h : tickOf spanA < tsA.last_track_time := by
    norm_num [tickOf, spanA, pyInt, tsA]
  exact ⟨h, C7_clock_regression tsA spanA h⟩

/-- C6: a decide invoked with a tick gap strictly greater than `BUFFER_SIZE`
performs at most `BUFFER_SIZE` expirations, leaves every bucket at zero and
(under the window invariant) the counter at zero, after which a same-tick burst
of up to `buffer_limit` units is admitted in full. -/
theorem C6_full_window_expiry (s : ThroughputSampler) (now : ℤ) (N : ℕ)
    (hinv : WindowInv s)
    (hgap : s.last_track_time + ((BUFFER_SIZE : ℕ) : ℤ) < now)
    (hN : (N : ℤ) ≤ s.buffer_limit) :
    (min ((BUFFER_SIZE : ℕ) : ℤ) (now - s.last_track_time)).toNat ≤ BUFFER_SIZE ∧
      (∀ j, (s.expire_buckets s.last_track_time now).counter_buffer j = 0) ∧
      (s.expire_buckets s.last_track_time now).counter = 0 ∧
      (runTicks s (List.replicate N now)).2 = List.replicate N true := by
  have hge : ((BUFFER_SIZE : ℕ) : ℤ) ≤ now - s.last_track_time := by omega
  have hfull := expire_buckets_full s.last_track_time now s hge
  refine ⟨?_, hfull.1, hfull.2 hinv, ?_⟩
  · rw [min_eq_left hge]
    simp
  · rw [runTicks_replicate_advance]
    have hlt : s.last_track_time < now := by omega
    have hadv : s.advance now =
        { s.expire_buckets s.last_track_time now with last_track_time := now } := by
      unfold ThroughputSampler.advance
      rw [if_pos hlt]
    have hc : (s.advance now).counter = 0 := by
      rw [hadv]
      exact hfull.2 hinv
    have hb : (s.advance now).buffer_limit = s.buffer_limit :=
      advance_buffer_limit s now
    exact (runTicks_replicate_all_kept N (s.advance now) now
      (advance_last_ge s now) (by rw [hc, hb]; omega)).1

theorem C6_full_window_expiry_witness :
    WindowInv (ThroughputSampler.init 1) ∧
      (ThroughputSampler.init 1).last_track_time + ((BUFFER_SIZE : ℕ) : ℤ) < 25 ∧
      ((2 : ℕ) : ℤ) ≤ (ThroughputSampler.init 1).buffer_limit ∧
      ((min ((BUFFER_SIZE : ℕ) : ℤ)
          (25 - (ThroughputSampler.init 1).last_track_time)).toNat ≤ BUFFER_SIZE ∧
        (∀ j, ((ThroughputSampler.init 1).expire_buckets
          (ThroughputSampler.init 1).last_track_time 25).counter_buffer j = 0) ∧
        ((ThroughputSampler.init 1).expire_buckets
          (ThroughputSampler.init 1).last_track_time 25).counter = 0 ∧
        (runTicks (ThroughputSampler.init 1) (List.replicate 2 25)).2 =
          List.replicate 2 true) := by
  have hinv : WindowInv (ThroughputSampler.init 1) := by
    simp [WindowInv, ThroughputSampler.init, bucketSum]
  have hgap : (ThroughputSampler.init 1).last_track_time +
      ((BUFFER_SIZE : ℕ) : ℤ) < 25 := by decide
  have hN : ((2 : ℕ) : ℤ) ≤ (ThroughputSampler.init 1).buffer_limit := by decide
  exact ⟨hinv, hgap, hN, C6_full_window_expiry (ThroughputSampler.init 1) 25 2 hinv hgap hN⟩

/-- C4: from the initial state, deciding `N` units that all fall in one tick,
with `N` above `buffer_limit`, keeps exactly `buffer_limit` of them and drops
exactly `N - buffer_limit`. -/
theorem C4_steady_state (tps : ℕ) (n : ℤ) (sps : List Span)
    (hsame : ∀ sp ∈ sps, tickOf sp = n)
    (hN : (ThroughputSampler.init tps).buffer_limit < (sps.length : ℤ)) :
    ((decideRun (ThroughputSampler.init tps) sps).2.count true : ℤ) =
        (ThroughputSampler.init tps).buffer_limit ∧
      ((decideRun (ThroughputSampler.init tps) sps).2.count false : ℤ) =
        (sps.length : ℤ) - (ThroughputSampler.init tps).buffer_limit := by
  rw [decideRun_eq_runTicks, map_tickOf_replicate sps n hsame]
  have h := runTicks_empty_count (ThroughputSampler.init tps) n sps.length
    (fun j => rfl) rfl
  have ha : 0 ≤ (ThroughputSampler.init tps).buffer_limit :=
    Int.natCast_nonneg _
  have hmin : min sps.length ((ThroughputSampler.init tps).buffer_limit).toNat
      = ((ThroughputSampler.init tps).buffer_limit).toNat :=
    min_eq_right (by omega)
  constructor
  · rw [h.1, hmin]
    omega
  · rw [h.2, hmin]
    omega

theorem C4_steady_state_witness :
    (∀ sp ∈ [spanA, spanA, spanA], tickOf sp = 0) ∧
      (ThroughputSampler.init 1).buffer_limit <
        (([spanA, spanA, spanA] : List Span).length : ℤ) ∧
      ((decideRun (ThroughputSampler.init 1) [spanA, spanA, spanA]).2.count true : ℤ) =
        (ThroughputSampler.init 1).buffer_limit ∧
      ((decideRun (ThroughputSampler.init 1) [spanA, spanA, spanA]).2.count false : ℤ) =
        (([spanA, spanA, spanA] : List Span).length : ℤ) -
          (ThroughputSampler.init 1).buffer_limit := by
  have hsame : ∀ sp ∈ [spanA, spanA, spanA], tickOf sp = 0 := by
    intro sp hsp
    simp only [List.mem_cons, List.not_mem_nil, or_false] at hsp
    rcases hsp with rfl | rfl | rfl <;> norm_num [tickOf, spanA, pyInt]
  have hN : (ThroughputSampler.init 1).buffer_limit <
      (([spanA, spanA, spanA] : List Span).length : ℤ) := by decide
  exact ⟨hsame, hN, (C4_steady_state 1 0 [spanA, spanA, spanA] hsame hN).1,
    (C4_steady_state 1 0 [spanA, spanA, spanA] hsame hN).2⟩

theorem C9_distributed_priority_witness :
    ((DistributedSampled.mk spanA).set_sampled true).sampling_priority =
        some (if true then 1 else 0) ∧
      ((DistributedSampled.mk spanA).set_sampled true).sampled = spanA.sampled ∧
      ((DistributedSampled.mk spanA).set_sampled true).sampling_priority = some 1 ∧
      ((DistributedSampled.mk spanA).set_sampled false).sampling_priority = some 0 ∧
      ((DistributedSampled.mk spanA).set_sampled true).sampling_priority ≠
        ((DistributedSampled.mk spanA).set_sampled false).sampling_priority :=
  C9_distributed_priority spanA true
